import Mathlib

/-!
Shallow embedding of the http2-viz relay chain, following the most
feature-complete variant of main.go (the Ui / Client / Proxy / Server
program with per-hop negotiation flags), together with theorems settling
the spec claims.

Go strings and byte slices are modelled as Lean String (reasoning happens
on their character lists).  Library functions the source calls
(bytes.Split, net/url query parsing, encoding/json marshalling of the
one-field observation structs, crypto/x509 certificate pools) are modelled
explicitly below; each such model carries a comment saying what it models
and which inputs it is faithful on.
-/

namespace HttpViz

/-- Source: const responseBoundary = "~~boundary~~". -/
def responseBoundary : String := "~~boundary~~"

/-- Source: const serverPort = ":8000". -/
def serverPort : String := ":8000"

/-- Source: const proxyPort = ":8001". -/
def proxyPort : String := ":8001"

/-- Source: const clientPort = ":8002". -/
def clientPort : String := ":8002"

/-- Source: const uiPort = ":8003". -/
def uiPort : String := ":8003"

/-- Checked prefix removal: the remainder of l after p, when p is a prefix. -/
def dropPrefixCheck : List Char → List Char → Option (List Char)
  | [], l => some l
  | _ :: _, [] => none
  | p :: ps, c :: cs => if p == c then dropPrefixCheck ps cs else none

/-- Checked suffix removal: the front of l before suf, when suf is a suffix. -/
def dropSuffixCheck (suf l : List Char) : Option (List Char) :=
  (dropPrefixCheck suf.reverse l.reverse).map List.reverse

/-- Fuel-indexed splitting of a character list around each leftmost,
non-overlapping occurrence of sep.  With fuel at least the length of the
list and a nonempty sep this computes exactly what Go bytes.Split computes
on the corresponding byte slices. -/
def splitOnSeqFuel (sep : List Char) : Nat → List Char → List (List Char)
  | _, [] => [[]]
  | 0, l => [l]
  | n + 1, c :: rest =>
    if sep.isPrefixOf (c :: rest) then
      [] :: splitOnSeqFuel sep n (List.drop (sep.length - 1) rest)
    else
      match splitOnSeqFuel sep n rest with
      | [] => [[c]]
      | seg :: segs => (c :: seg) :: segs

/-- Model of Go bytes.Split (for a nonempty separator). -/
def splitOnSeq (sep l : List Char) : List (List Char) :=
  splitOnSeqFuel sep l.length l

/-- Whether sep occurs contiguously inside l (model of bytes.Contains). -/
def containsSeq (sep : List Char) : List Char → Bool
  | [] => sep.isEmpty
  | c :: rest => sep.isPrefixOf (c :: rest) || containsSeq sep rest

/-- Interleave sep between the given chunks (inverse of splitting). -/
def joinSep (sep : List Char) : List (List Char) → List Char
  | [] => []
  | [x] => x
  | x :: y :: xs => x ++ sep ++ joinSep sep (y :: xs)

/-- Characters of the canonical JSON prefix of a one-field observation
object, as produced by Go json.Marshal for the structs tagged protocol. -/
def jsonPre : List Char := "\x7b\"protocol\":\"".data

/-- Characters of the canonical JSON suffix of the observation object. -/
def jsonSuf : List Char := "\"\x7d".data

/-- Model of Go json.Marshal for the one-field structs ProxyResponse and
ServerResponse (json tag "protocol"): on field values free of characters
that need JSON escaping it produces exactly this string. -/
def marshalProtocolJson (v : String) : String :=
  String.mk (jsonPre ++ v.data ++ jsonSuf)

/-- Model of Go json.Unmarshal into the one-field observation structs,
restricted to the canonical serialization produced by marshalProtocolJson.
Inputs not of that canonical shape are rejected; in particular the empty
string and text without the JSON object frame, which json.Unmarshal also
rejects.  (Go additionally tolerates reordered or whitespace-padded JSON;
no value flowing through this development takes those shapes.) -/
def unmarshalProtocolField (s : String) : Option String :=
  (dropPrefixCheck jsonPre s.data).bind fun rest =>
    (dropSuffixCheck jsonSuf rest).bind fun mid =>
      if mid.all (fun c => !(c == '\"' || c == '\\')) then some (String.mk mid)
      else none

/-- Source: type ProxyResponse struct, RequestProtocol with json tag
protocol — the Relay's observation of its inbound protocol. -/
structure ProxyResponse where
  RequestProtocol : String
deriving Repr, DecidableEq

/-- Source: type ServerResponse struct — the Origin's observation. -/
structure ServerResponse where
  RequestProtocol : String
deriving Repr, DecidableEq

/-- Source: type Configuration struct — the per-request negotiation flags. -/
structure Configuration where
  ClientUseHttp2 : Bool
  ProxyUseHttp2 : Bool
deriving Repr, DecidableEq

/-- Source: type ClientResponse struct — the Edge's aggregated view. -/
structure ClientResponse where
  ProxyResponse : ProxyResponse
  ResponseCode : String
  ResponseProtocol : String
  ServerResponse : ServerResponse
deriving Repr, DecidableEq

/-- The parts of net/url URL the source touches. -/
structure URL where
  Scheme : String
  Host : String
  RawQuery : String
deriving Repr, DecidableEq

/-- The parts of net/http Request the source touches. -/
structure Request where
  URL : URL
  Host : String
  Proto : String
  Headers : List (String × String)
deriving Repr, DecidableEq

/-- The parts of an HTTP response the source touches: status, the protocol
the connection it travelled on negotiated, and the body. -/
structure HttpResponse where
  StatusCode : Nat
  Proto : String
  Body : String
deriving Repr, DecidableEq

/-- Model of r.URL.Query() (net/url ParseQuery) for raw queries without
percent-escapes or semicolons: segments split on the ampersand, empty
segments skipped, each cut at its first equals sign, values kept in order
of appearance. -/
def parseQuery (rawQuery : String) : List (String × String) :=
  (splitOnSeq ['&'] rawQuery.data).filterMap fun seg =>
    match seg with
    | [] => none
    | _ :: _ =>
      match splitOnSeq ['='] seg with
      | [] => none
      | k :: rest => some (String.mk k, String.mk (joinSep ['='] rest))

/-- The values listed for key k, in order of appearance (model of
url.Values lookup on the parsed query). -/
def lookupAll (q : List (String × String)) (k : String) : List String :=
  (q.filter fun p => p.fst == k).map Prod.snd

/-- Source: the body of ConfigurationParser.Parse — for each flag,
ok && (param[0] == "true"), acting on the parsed query pairs. -/
def parseConfigList (q : List (String × String)) : Configuration :=
  let clientUseHttp2 :=
    match lookupAll q "client-http2" with
    | [] => false
    | v :: _ => v == "true"
  let proxyUseHttp2 :=
    match lookupAll q "proxy-http2" with
    | [] => false
    | v :: _ => v == "true"
  { ClientUseHttp2 := clientUseHttp2, ProxyUseHttp2 := proxyUseHttp2 }

/-- Source: ConfigurationParser.Parse. -/
def ConfigurationParser.Parse (r : Request) : Configuration :=
  parseConfigList (parseQuery r.URL.RawQuery)

/-- The PEM begin marker for certificate blocks. -/
def pemBeginMarker : List Char := "-----BEGIN CERTIFICATE-----".data

/-- The PEM end marker for certificate blocks. -/
def pemEndMarker : List Char := "-----END CERTIFICATE-----".data

/-- Model of the PEM block extraction inside crypto/x509
CertPool.AppendCertsFromPEM: the certificates of the material are its
blocks framed by the certificate markers (DER decoding abstracted: a
framed block stands for the certificate it encodes). -/
def pemCertBlocks (s : String) : List String :=
  match splitOnSeq pemBeginMarker s.data with
  | [] => []
  | _ :: rest =>
    rest.filterMap fun seg =>
      match splitOnSeq pemEndMarker seg with
      | [] => none
      | [_] => none
      | body :: _ :: _ => some (String.mk body)

/-- Model of caCertPool.AppendCertsFromPEM: appends the certificates found
in the material and reports whether any was added.  The source discards
that report. -/
def appendCertsFromPEM (pool : List String) (pemData : String) :
    List String × Bool :=
  (pool ++ pemCertBlocks pemData, !(pemCertBlocks pemData).isEmpty)

/-- Source: const Http1 HttpVersion = "http1" (HttpVersion is a string). -/
def Http1 : String := "http1"

/-- Source: const Http2 HttpVersion = "http2". -/
def Http2 : String := "http2"

/-- The round trippers TransportFactory.buildTransport can return: an
http.Transport, an http2.Transport — each carrying the root-CA pool of its
fresh TLS client config — or the nil interface the switch default leaves. -/
inductive RoundTripper where
  | httpTransport (rootCAs : List String)
  | http2Transport (rootCAs : List String)
  | nilRT
deriving Repr, DecidableEq

/-- The certificate file every client-side trust pool is read from
(source: ioutil.ReadFile("server.crt") inside buildTransport). -/
def TransportFactory.caCertFile : String := "server.crt"

/-- Source: TransportFactory.buildTransport.  The file read is passed in
as readCert (contents on success, the read error otherwise); the boolean
result of AppendCertsFromPEM is discarded exactly as in the source, and
the switch without a default leaves a nil transport for any other
version string. -/
def TransportFactory.buildTransport (httpVersion : String)
    (readCert : Except String String) : Except String RoundTripper :=
  match readCert with
  | .error e => .error e
  | .ok caCert =>
    let caCertPool := (appendCertsFromPEM [] caCert).fst
    .ok (if httpVersion == Http1 then .httpTransport caCertPool
         else if httpVersion == Http2 then .http2Transport caCertPool
         else .nilRT)

/-- Source: TransportFactory.BuildHttp2Transport. -/
def TransportFactory.BuildHttp2Transport (readCert : Except String String) :
    Except String RoundTripper :=
  TransportFactory.buildTransport Http2 readCert

/-- Source: TransportFactory.BuildHttp1Transport. -/
def TransportFactory.BuildHttp1Transport (readCert : Except String String) :
    Except String RoundTripper :=
  TransportFactory.buildTransport Http1 readCert

/-- Modelled from the Go net/http and golang.org/x/net/http2 libraries:
over TLS an http2.Transport negotiates HTTP/2.0 via ALPN, and an
http.Transport carrying a non-nil custom TLSClientConfig keeps automatic
HTTP/2 disabled and negotiates HTTP/1.1; a nil transport falls back to
http.DefaultTransport, whose negotiation this model does not pin down. -/
def negotiatedProto : RoundTripper → Option String
  | .httpTransport _ => some "HTTP/1.1"
  | .http2Transport _ => some "HTTP/2.0"
  | .nilRT => none

/-- Source: json.Marshal(response) in Proxy.handle. -/
def marshalProxyResponse (p : ProxyResponse) : String :=
  marshalProtocolJson p.RequestProtocol

/-- Source: json.Marshal(response) in Server.handle. -/
def marshalServerResponse (s : ServerResponse) : String :=
  marshalProtocolJson s.RequestProtocol

/-- Source: json.Unmarshal(proxyResponseBody, &parsedProxyResponse). -/
def unmarshalProxyResponse (s : String) : Option ProxyResponse :=
  (unmarshalProtocolField s).map ProxyResponse.mk

/-- Source: json.Unmarshal(serverResponseBody, &parsedServerResponse). -/
def unmarshalServerResponse (s : String) : Option ServerResponse :=
  (unmarshalProtocolField s).map ServerResponse.mk

/-- The failure modes of Client.parseResponse.  The source fails these by
an index-out-of-range panic (missing delimiter) or by HandleErr of the
json error (bad segment); both abort the request without a response and
are modelled as errors. -/
inductive DecodeError where
  | missingDelimiter
  | badProxySegment
  | badServerSegment
deriving Repr, DecidableEq

/-- Model of bytes.Split on strings (nonempty separator). -/
def bytesSplit (sep s : String) : List String :=
  (splitOnSeq sep.data s.data).map String.mk

/-- Source: Client.parseResponse — bytes.Split on responseBoundary, slots
0 and 1 read (everything past slot 1 never inspected), json.Unmarshal on
each of the two. -/
def Client.parseResponse (body : String) :
    Except DecodeError (ProxyResponse × ServerResponse) :=
  match bytesSplit responseBoundary body with
  | s0 :: s1 :: _ =>
    match unmarshalProxyResponse s0 with
    | none => .error .badProxySegment
    | some pr =>
      match unmarshalServerResponse s1 with
      | none => .error .badServerSegment
      | some sr => .ok (pr, sr)
  | _ => .error .missingDelimiter

/-- Source: Server.handle — the entire body is the JSON observation of the
protocol of the inbound request. -/
def Server.respond (r : Request) : HttpResponse :=
  { StatusCode := 200, Proto := r.Proto,
    Body := marshalServerResponse { RequestProtocol := r.Proto } }

/-- Source: the response assembly of Proxy.handle.  The Fprint of the tag
and of the boundary commits status 200 on the inbound stream before the
forward happens; when the upstream round trip fails, ReverseProxy's
WriteHeader(502) is superfluous because the headers are already written,
so the caller still sees status 200 with the truncated, delimiter-
terminated body. -/
def Proxy.respond (r : Request) (upstream : Except Unit HttpResponse) :
    HttpResponse :=
  let tag := marshalProxyResponse { RequestProtocol := r.Proto } ++ responseBoundary
  match upstream with
  | .ok resp => { StatusCode := 200, Proto := r.Proto, Body := tag ++ resp.Body }
  | .error _ => { StatusCode := 200, Proto := r.Proto, Body := tag }

/-- Source: Ui.handle — clientUrl has Scheme http, the client host, and
the inbound RawQuery re-attached. -/
def Ui.clientUrl (thisClientPort : String) (r : Request) : URL :=
  { Scheme := "http", Host := "localhost" ++ thisClientPort,
    RawQuery := r.URL.RawQuery }

/-- Source: Client.handle — proxyUrl has Scheme https, the proxy host, and
the inbound RawQuery re-attached. -/
def Client.proxyUrl (thisProxyPort : String) (r : Request) : URL :=
  { Scheme := "https", Host := "localhost" ++ thisProxyPort,
    RawQuery := r.URL.RawQuery }

/-- Source: the director closure of Proxy.handle — adds the two forwarding
headers and rewrites only the Scheme and Host of the outbound URL. -/
def Proxy.director (originHost : String) (req : Request) : Request :=
  { req with
    Headers := req.Headers ++
      [("X-Forwarded-Host", req.Host), ("X-Origin-Host", originHost)],
    URL := { req.URL with Scheme := "https", Host := originHost } }

/-- Source: the transport choice in Client.makeRequest, branching on
configuration.ClientUseHttp2. -/
def Client.selectTransport (useHttp2 : Bool)
    (readCert : Except String String) : Except String RoundTripper :=
  if useHttp2 then TransportFactory.BuildHttp2Transport readCert
  else TransportFactory.BuildHttp1Transport readCert

/-- Source: the transport choice in Proxy.handle, branching on
configuration.ProxyUseHttp2. -/
def Proxy.selectTransport (useHttp2 : Bool)
    (readCert : Except String String) : Except String RoundTripper :=
  if useHttp2 then TransportFactory.BuildHttp2Transport readCert
  else TransportFactory.BuildHttp1Transport readCert

/-- Source: the tail of Client.handle — decode the relay body and build
the ClientResponse from the outbound call's status, protocol and the two
decoded observations (strconv.Itoa modelled by toString). -/
def Client.respond (proxyResp : HttpResponse) :
    Except DecodeError ClientResponse :=
  (Client.parseResponse proxyResp.Body).map fun pr =>
    { ProxyResponse := pr.fst,
      ResponseCode := toString proxyResp.StatusCode,
      ResponseProtocol := proxyResp.Proto,
      ServerResponse := pr.snd }

/-- The composed Edge → Relay → Origin round trip for one inbound request
at the Edge, stitching together the per-hop functions above exactly as the
source chains them: the Edge re-attaches the inbound query and calls the
Relay over the transport its flag selects; the Relay parses the same query
off its inbound request, forwards through its director over the transport
its flag selects, and tags the body; the Edge decodes the combined body.
Protocols observed inbound at each hop are the ones the upstream
transport negotiated. -/
def endToEnd (r : Request) (readCert : Except String String) :
    Except String (Except DecodeError ClientResponse) :=
  let configuration := ConfigurationParser.Parse r
  match Client.selectTransport configuration.ClientUseHttp2 readCert with
  | .error e => .error e
  | .ok edgeTransport =>
    match negotiatedProto edgeTransport with
    | none => .error "nil transport"
    | some edgeProto =>
      let proxyUrl := Client.proxyUrl proxyPort r
      let proxyReq : Request :=
        { URL := proxyUrl, Host := proxyUrl.Host, Proto := edgeProto,
          Headers := [] }
      let proxyConfiguration := ConfigurationParser.Parse proxyReq
      match Proxy.selectTransport proxyConfiguration.ProxyUseHttp2 readCert with
      | .error e => .error e
      | .ok proxyTransport =>
        match negotiatedProto proxyTransport with
        | none => .error "nil transport"
        | some originProto =>
          let originHost := "localhost" ++ serverPort
          let originReq :=
            { Proxy.director originHost proxyReq with Proto := originProto }
          let originResp := Server.respond originReq
          let proxyResp := Proxy.respond proxyReq (.ok originResp)
          .ok (Client.respond proxyResp)

/-- One call of Http2Server.ServeHttp as a component issues it: the
endpoint name and the tls flag passed. -/
structure ServeCall where
  name : String
  useTls : Bool
deriving Repr, DecidableEq

/-- Source: the certificate file of srv.ListenAndServeTLS. -/
def Http2Server.certFile : String := "server.crt"

/-- Source: the key file of srv.ListenAndServeTLS. -/
def Http2Server.keyFile : String := "server.key"

/-- Source: the scheme Http2Server.ServeHttp logs and serves, as a
function of its tls flag. -/
def Http2Server.serveScheme (tls : Bool) : String :=
  if tls then "https" else "http"

/-- Source: the key pair Http2Server.ServeHttp serves with — the pinned
pair under TLS, none on the plain ListenAndServe path. -/
def Http2Server.serveKeyPair (tls : Bool) : Option (String × String) :=
  if tls then some (Http2Server.certFile, Http2Server.keyFile) else none

/-- Source: Ui.Start calls ServeHttp("ui", handle, false). -/
def Ui.startCall : ServeCall := { name := "ui", useTls := false }

/-- Source: Client.Start calls ServeHttp("client", handle, false). -/
def Client.startCall : ServeCall := { name := "client", useTls := false }

/-- Source: Proxy.Start calls ServeHttp("proxy", handle, true). -/
def Proxy.startCall : ServeCall := { name := "proxy", useTls := true }

/-- Source: Server.Start calls ServeHttp("server", handle, true). -/
def Server.startCall : ServeCall := { name := "server", useTls := true }

/-- Field values whose canonical JSON needs no escaping and which avoid
the tilde of the sentinel; every protocol string of the system (HTTP/1.1,
HTTP/2.0) satisfies this. -/
def validField (v : String) : Bool :=
  v.data.all fun c => !(c == '\"' || c == '\\' || c == '~')

/-! Helper lemmas about the list-level models. -/

theorem dropPrefixCheck_append (p r : List Char) :
    dropPrefixCheck p (p ++ r) = some r := by
  induction p with
  | nil => rfl
  | cons c cs ih => simp [dropPrefixCheck, ih]

theorem dropSuffixCheck_append (s r : List Char) :
    dropSuffixCheck s (r ++ s) = some r := by
  unfold dropSuffixCheck
  rw [List.reverse_append, dropPrefixCheck_append]
  simp

theorem unmarshal_marshal (v : String) (hv : validField v = true) :
    unmarshalProtocolField (marshalProtocolJson v) = some v := by
  have hv' := List.all_eq_true.mp hv
  have hall : v.data.all (fun c => !(c == '\"' || c == '\\')) = true := by
    apply List.all_eq_true.mpr
    intro c hc
    have h : (!(c == '\"' || c == '\\' || c == '~')) = true := hv' c hc
    simp only [Bool.not_eq_true', Bool.or_eq_false_iff] at h
    simp only [Bool.not_eq_true', Bool.or_eq_false_iff]
    exact h.1
  unfold unmarshalProtocolField
  rw [show (marshalProtocolJson v).data = jsonPre ++ (v.data ++ jsonSuf)
      from rfl]
  rw [dropPrefixCheck_append, Option.some_bind, dropSuffixCheck_append,
    Option.some_bind, if_pos hall]

theorem isPrefixOf_self_append (l t : List Char) :
    l.isPrefixOf (l ++ t) = true := by
  induction l with
  | nil => cases t <;> rfl
  | cons c cs ih => simp [List.isPrefixOf, ih]

theorem isPrefixOf_cons_of_ne (s0 : Char) (stl : List Char) (c : Char)
    (rest : List Char) (h : ¬ c = s0) :
    (s0 :: stl).isPrefixOf (c :: rest) = false := by
  have : (s0 == c) = false := beq_eq_false_iff_ne.mpr (fun he => h he.symm)
  simp [List.isPrefixOf, this]

theorem splitOnSeqFuel_stab (sep : List Char) :
    ∀ (f g : Nat) (l : List Char), l.length ≤ f → l.length ≤ g →
      splitOnSeqFuel sep f l = splitOnSeqFuel sep g l := by
  intro f
  induction f with
  | zero =>
    intro g l hf _
    have hl : l = [] := List.eq_nil_of_length_eq_zero (Nat.le_zero.mp hf)
    subst hl
    cases g <;> rfl
  | succ n ih =>
    intro g l hf hg
    cases l with
    | nil => cases g <;> rfl
    | cons c rest =>
      cases g with
      | zero => simp at hg
      | succ m =>
        have hrn : rest.length ≤ n := by
          have := hf
          simp [List.length_cons] at this
          omega
        have hrm : rest.length ≤ m := by
          have := hg
          simp [List.length_cons] at this
          omega
        cases hp : sep.isPrefixOf (c :: rest) with
        | true =>
          simp only [splitOnSeqFuel, hp, if_true]
          have hd : (List.drop (sep.length - 1) rest).length ≤ rest.length := by
            rw [List.length_drop]
            omega
          rw [ih n (List.drop (sep.length - 1) rest) (le_trans hd hrn)
              (le_trans hd hrn), ih m (List.drop (sep.length - 1) rest)
              (le_trans hd hrn) (le_trans hd hrm)]
        | false =>
          simp only [splitOnSeqFuel, hp, Bool.false_eq_true, if_false]
          rw [ih m rest hrn hrm]

theorem splitOnSeqFuel_junction (s0 : Char) (stl : List Char) :
    ∀ (a : List Char), (∀ c ∈ a, ¬ c = s0) →
    ∀ (f : Nat) (b : List Char),
      a.length + (s0 :: stl).length + b.length ≤ f →
      splitOnSeqFuel (s0 :: stl) f (a ++ (s0 :: stl) ++ b)
        = a :: splitOnSeqFuel (s0 :: stl)
            (f - (a.length + (s0 :: stl).length)) b := by
  intro a
  induction a with
  | nil =>
    intro _ f b hb
    cases f with
    | zero => simp at hb
    | succ n =>
      show splitOnSeqFuel (s0 :: stl) (n + 1) (s0 :: (stl ++ b)) = _
      have hp : (s0 :: stl).isPrefixOf (s0 :: (stl ++ b)) = true :=
        isPrefixOf_self_append (s0 :: stl) b
      simp only [splitOnSeqFuel, hp, if_true]
      have hdrop : List.drop ((s0 :: stl).length - 1) (stl ++ b) = b := by
        simp only [List.length_cons, Nat.add_sub_cancel]
        exact List.drop_left stl b
      rw [hdrop]
      have hlen : stl.length + 1 + b.length ≤ n + 1 := by
        simpa using hb
      have h1 : b.length ≤ n := by omega
      have h2 : b.length ≤ n + 1 - (0 + (s0 :: stl).length) := by
        simp only [List.length_cons, Nat.zero_add]
        omega
      rw [splitOnSeqFuel_stab (s0 :: stl) n
          (n + 1 - ([] : List Char).length - (s0 :: stl).length) b h1
          (by simpa using h2)]
      simp
  | cons c a' ih =>
    intro ha f b hb
    cases f with
    | zero => simp at hb
    | succ n =>
      show splitOnSeqFuel (s0 :: stl) (n + 1) (c :: (a' ++ (s0 :: stl) ++ b)) = _
      have hc : ¬ c = s0 := ha c (List.mem_cons_self c a')
      have hp : (s0 :: stl).isPrefixOf (c :: (a' ++ (s0 :: stl) ++ b)) = false :=
        isPrefixOf_cons_of_ne s0 stl c _ hc
      simp only [splitOnSeqFuel, hp, Bool.false_eq_true, if_false]
      have hb' : a'.length + (s0 :: stl).length + b.length ≤ n := by
        have := hb
        simp [List.length_cons] at this ⊢
        omega
      rw [ih (fun x hx => ha x (List.mem_cons_of_mem c hx)) n b hb']
      have hfe : n - (a'.length + (s0 :: stl).length)
          = n + 1 - ((c :: a').length + (s0 :: stl).length) := by
        simp only [List.length_cons]
        omega
      rw [hfe]

theorem splitOnSeq_junction (s0 : Char) (stl a b : List Char)
    (ha : ∀ c ∈ a, ¬ c = s0) :
    splitOnSeq (s0 :: stl) (a ++ (s0 :: stl) ++ b)
      = a :: splitOnSeq (s0 :: stl) b := by
  unfold splitOnSeq
  rw [splitOnSeqFuel_junction s0 stl a ha (a ++ (s0 :: stl) ++ b).length b
      (by simp; omega)]
  congr 1
  apply splitOnSeqFuel_stab
  · simp
    omega
  · exact le_refl _

theorem containsSeq_false_of_no_head (s0 : Char) (stl : List Char) :
    ∀ (l : List Char), (∀ c ∈ l, ¬ c = s0) →
      containsSeq (s0 :: stl) l = false := by
  intro l hl
  induction l with
  | nil => rfl
  | cons c rest ih =>
    have hc : ¬ c = s0 := hl c (List.mem_cons_self c rest)
    simp only [containsSeq, isPrefixOf_cons_of_ne s0 stl c rest hc,
      Bool.false_or]
    exact ih (fun x hx => hl x (List.mem_cons_of_mem c hx))

theorem splitOnSeqFuel_of_not_contains (sep : List Char) :
    ∀ (f : Nat) (l : List Char), containsSeq sep l = false → l.length ≤ f →
      splitOnSeqFuel sep f l = [l] := by
  intro f
  induction f with
  | zero =>
    intro l _ hf
    have hl : l = [] := List.eq_nil_of_length_eq_zero (Nat.le_zero.mp hf)
    subst hl
    rfl
  | succ n ih =>
    intro l hc hf
    cases l with
    | nil => rfl
    | cons c rest =>
      have hcc := hc
      simp only [containsSeq, Bool.or_eq_false_iff] at hcc
      have hrest : rest.length ≤ n := by
        simp [List.length_cons] at hf
        omega
      simp only [splitOnSeqFuel, hcc.1, Bool.false_eq_true, if_false]
      rw [ih rest hcc.2 hrest]

theorem splitOnSeq_of_not_contains (sep l : List Char)
    (hc : containsSeq sep l = false) : splitOnSeq sep l = [l] :=
  splitOnSeqFuel_of_not_contains sep l.length l hc (le_refl _)

theorem marshal_no_tilde (v : String) (hv : validField v = true) :
    ∀ c ∈ (marshalProtocolJson v).data, ¬ c = '~' := by
  have hpre : ∀ x ∈ jsonPre, ¬ x = '~' := by decide
  have hsuf : ∀ x ∈ jsonSuf, ¬ x = '~' := by decide
  have hv' := List.all_eq_true.mp hv
  intro c hc
  have hdata : (marshalProtocolJson v).data = jsonPre ++ (v.data ++ jsonSuf) :=
    rfl
  rw [hdata] at hc
  rcases List.mem_append.mp hc with h | h
  · exact hpre c h
  · rcases List.mem_append.mp h with h2 | h2
    · have hb : (!(c == '\"' || c == '\\' || c == '~')) = true := hv' c h2
      simp only [Bool.not_eq_true', Bool.or_eq_false_iff] at hb
      intro he
      rw [he] at hb
      simp at hb
    · exact hsuf c h2

theorem responseBoundary_cons :
    responseBoundary.data = '~' :: "~boundary~~".data := rfl

theorem bytesSplit_front (a rest : String)
    (ha : ∀ c ∈ a.data, ¬ c = '~') :
    bytesSplit responseBoundary (a ++ (responseBoundary ++ rest))
      = a :: bytesSplit responseBoundary rest := by
  unfold bytesSplit
  have hd : (a ++ (responseBoundary ++ rest)).data
      = a.data ++ (responseBoundary.data ++ rest.data) := by
    rw [String.data_append, String.data_append]
  rw [hd, responseBoundary_cons]
  rw [show a.data ++ ('~' :: "~boundary~~".data ++ rest.data)
        = a.data ++ ('~' :: "~boundary~~".data) ++ rest.data
      from by simp]
  rw [splitOnSeq_junction '~' ("~boundary~~".data) a.data rest.data ha]
  rfl

theorem bytesSplit_tag (v : String) (hv : validField v = true)
    (rest : String) :
    bytesSplit responseBoundary (marshalProtocolJson v ++ (responseBoundary ++ rest))
      = marshalProtocolJson v :: bytesSplit responseBoundary rest :=
  bytesSplit_front (marshalProtocolJson v) rest (marshal_no_tilde v hv)

theorem bytesSplit_no_boundary (body : String)
    (hb : containsSeq responseBoundary.data body.data = false) :
    bytesSplit responseBoundary body = [body] := by
  unfold bytesSplit
  rw [splitOnSeq_of_not_contains responseBoundary.data body.data hb]
  rfl

theorem lookupAll_append (q1 q2 : List (String × String)) (k : String) :
    lookupAll (q1 ++ q2) k = lookupAll q1 k ++ lookupAll q2 k := by
  simp [lookupAll, List.filter_append]

theorem lookupAll_cons_self (k v : String) (q : List (String × String)) :
    lookupAll ((k, v) :: q) k = v :: lookupAll q k := by
  simp [lookupAll, List.filter_cons]

theorem lookupAll_eq_nil (q : List (String × String)) (k : String)
    (h : ∀ p ∈ q, ¬ p.fst = k) : lookupAll q k = [] := by
  unfold lookupAll
  rw [List.filter_eq_nil_iff.mpr (by
    intro p hp
    simpa using h p hp)]
  rfl

theorem mem_lookupAll (q : List (String × String)) (k a : String) :
    a ∈ lookupAll q k ↔ (k, a) ∈ q := by
  unfold lookupAll
  constructor
  · intro h
    rcases List.mem_map.mp h with ⟨p, hp, hpa⟩
    rcases List.mem_filter.mp hp with ⟨hmem, hkey⟩
    have hk : p.fst = k := by simpa using hkey
    have : p = (k, a) := by
      cases p
      simp at hk hpa
      simp [hk, hpa]
    rw [this] at hmem
    exact hmem
  · intro h
    exact List.mem_map.mpr ⟨(k, a), List.mem_filter.mpr ⟨h, by simp⟩, rfl⟩

theorem lookupAll_first (pre post : List (String × String)) (k v : String)
    (h : ∀ p ∈ pre, ¬ p.fst = k) :
    lookupAll (pre ++ (k, v) :: post) k = v :: lookupAll post k := by
  rw [lookupAll_append, lookupAll_eq_nil pre k h, lookupAll_cons_self]
  rfl

theorem flag_iff_mem (q : List (String × String)) (k : String)
    (h : (lookupAll q k).length ≤ 1) :
    ((match lookupAll q k with
      | [] => false
      | v :: _ => (v == "true")) = true) ↔ (k, "true") ∈ q := by
  cases hl : lookupAll q k with
  | nil =>
    constructor
    · intro hfalse
      simp at hfalse
    · intro hm
      have hmem : "true" ∈ lookupAll q k := (mem_lookupAll q k "true").mpr hm
      rw [hl] at hmem
      cases hmem
  | cons v rest =>
    rw [hl] at h
    have hrest : rest = [] := by
      have hz : rest.length = 0 := by
        have h1 : rest.length + 1 ≤ 1 := by simpa using h
        omega
      exact List.eq_nil_of_length_eq_zero hz
    subst hrest
    show ((v == "true") = true) ↔ (k, "true") ∈ q
    constructor
    · intro hv
      have hveq : v = "true" := by simpa using hv
      apply (mem_lookupAll q k "true").mp
      rw [hl, hveq]
      exact List.mem_cons_self _ _
    · intro hm
      have hmem : "true" ∈ lookupAll q k := (mem_lookupAll q k "true").mpr hm
      rw [hl] at hmem
      have hveq : "true" = v := by simpa using hmem
      rw [← hveq]
      rfl

theorem parseResponse_missing (body : String)
    (hnb : containsSeq responseBoundary.data body.data = false) :
    Client.parseResponse body = .error .missingDelimiter := by
  unfold Client.parseResponse
  rw [bytesSplit_no_boundary body hnb]

theorem marshal_not_contains_boundary (v : String)
    (hv : validField v = true) :
    containsSeq responseBoundary.data (marshalProtocolJson v).data = false := by
  rw [responseBoundary_cons]
  exact containsSeq_false_of_no_head '~' ("~boundary~~".data)
    (marshalProtocolJson v).data (marshal_no_tilde v hv)

theorem parseResponse_two (v w junk : String)
    (hv : validField v = true) (hw : validField w = true) :
    Client.parseResponse
      (marshalProtocolJson v ++ (responseBoundary
        ++ (marshalProtocolJson w ++ (responseBoundary ++ junk))))
      = .ok ({ RequestProtocol := v }, { RequestProtocol := w }) := by
  unfold Client.parseResponse
  rw [bytesSplit_tag v hv, bytesSplit_tag w hw]
  show (match unmarshalProxyResponse (marshalProtocolJson v) with
        | none => Except.error DecodeError.badProxySegment
        | some pr =>
          match unmarshalServerResponse (marshalProtocolJson w) with
          | none => Except.error DecodeError.badServerSegment
          | some sr => Except.ok (pr, sr)) = _
  unfold unmarshalProxyResponse unmarshalServerResponse
  rw [unmarshal_marshal v hv, unmarshal_marshal w hw]
  rfl

theorem parseResponse_truncated (v : String) (hv : validField v = true) :
    Client.parseResponse (marshalProtocolJson v ++ responseBoundary)
      = .error .badServerSegment := by
  have he : marshalProtocolJson v ++ responseBoundary
      = marshalProtocolJson v ++ (responseBoundary ++ "") := by
    rw [String.append_empty]
  rw [he]
  unfold Client.parseResponse
  rw [bytesSplit_tag v hv ""]
  show (match unmarshalProxyResponse (marshalProtocolJson v) with
        | none => Except.error DecodeError.badProxySegment
        | some pr =>
          match unmarshalServerResponse "" with
          | none => Except.error DecodeError.badServerSegment
          | some sr => Except.ok (pr, sr)) = _
  unfold unmarshalProxyResponse
  rw [unmarshal_marshal v hv]
  rfl

theorem parseResponse_badProxy (junk w : String)
    (hw : validField w = true)
    (hjt : ∀ c ∈ junk.data, ¬ c = '~')
    (hjbad : unmarshalProtocolField junk = none) :
    Client.parseResponse (junk ++ (responseBoundary ++ marshalProtocolJson w))
      = .error .badProxySegment := by
  unfold Client.parseResponse
  rw [bytesSplit_front junk (marshalProtocolJson w) hjt,
    bytesSplit_no_boundary (marshalProtocolJson w)
      (marshal_not_contains_boundary w hw)]
  show (match unmarshalProxyResponse junk with
        | none => Except.error DecodeError.badProxySegment
        | some pr =>
          match unmarshalServerResponse (marshalProtocolJson w) with
          | none => Except.error DecodeError.badServerSegment
          | some sr => Except.ok (pr, sr)) = _
  unfold unmarshalProxyResponse
  rw [hjbad]
  rfl

/-! Concrete inputs used by the claim theorems. -/

/-- A request query carrying the two negotiation flags. -/
def mkFlagQuery (b1 b2 : Bool) : String :=
  "client-http2=" ++ (if b1 then "true" else "false")
    ++ "&proxy-http2=" ++ (if b2 then "true" else "false")

/-- A syntactically well-formed PEM trust root. -/
def goodCert : String :=
  "-----BEGIN CERTIFICATE-----\nMIICdemo\n-----END CERTIFICATE-----\n"

/-- The Edge's inbound request for a given flag combination. -/
def edgeInbound (b1 b2 : Bool) : Request :=
  { URL := { Scheme := "http", Host := "localhost" ++ uiPort,
             RawQuery := mkFlagQuery b1 b2 },
    Host := "localhost" ++ clientPort, Proto := "HTTP/1.1", Headers := [] }

/-- A relay body in which the sentinel delimiter appears twice. -/
def multiBody : String :=
  marshalProtocolJson "HTTP/2.0" ++ responseBoundary
    ++ marshalProtocolJson "HTTP/1.1" ++ responseBoundary ++ "junk"

/-- A concrete inbound relay request. -/
def failRequest : Request :=
  { URL := { Scheme := "https", Host := "localhost:8001",
             RawQuery := "client-http2=true&proxy-http2=true" },
    Host := "localhost:8002", Proto := "HTTP/2.0", Headers := [] }

/-! The claim theorems. -/

/-- C1: for every one of the 4 negotiation-flag combinations, the
end-to-end request to the Edge yields an aggregated response whose relay
observation is exactly the protocol the Edge's outbound transport
negotiated to the Relay (HTTP/2.0 under the edge flag, HTTP/1.1
otherwise) and whose origin observation is exactly the protocol the
Relay's transport negotiated to the Origin, each depending only on its
own hop's flag. -/
theorem c1_observed_protocols : ∀ b1 b2 : Bool,
    endToEnd (edgeInbound b1 b2) (.ok goodCert)
      = .ok (.ok
          { ProxyResponse :=
              { RequestProtocol := if b1 then "HTTP/2.0" else "HTTP/1.1" },
            ResponseCode := "200",
            ResponseProtocol := if b1 then "HTTP/2.0" else "HTTP/1.1",
            ServerResponse :=
              { RequestProtocol := if b2 then "HTTP/2.0" else "HTTP/1.1" } }) := by
  intro b1 b2
  cases b1 <;> cases b2 <;> rfl

/-- C2 counterexample: a relay body in which the delimiter appears more
than once (three split segments) does NOT fail — the decode returns a
fully populated result and silently ignores the trailing segment,
contradicting the claim that such bodies fail with a decode error. -/
theorem c2_counterexample :
    (bytesSplit responseBoundary multiBody).length = 3
    ∧ Client.parseResponse multiBody
        = .ok ({ RequestProtocol := "HTTP/2.0" },
               { RequestProtocol := "HTTP/1.1" }) :=
  ⟨rfl, rfl⟩

/-- C2 (amended): the Edge's decode splits the relay body on the sentinel
delimiter and reads the first two segments; it fails — producing no
aggregated response — when the delimiter is absent or when either of the
first two segments fails parsing, but when the delimiter appears more
than once the segments after the second are ignored and decoding
succeeds. -/
theorem c2_amended_decode (body v w junk : String)
    (hnb : containsSeq responseBoundary.data body.data = false)
    (hv : validField v = true) (hw : validField w = true)
    (hjt : ∀ c ∈ junk.data, ¬ c = '~')
    (hjbad : unmarshalProtocolField junk = none) :
    Client.parseResponse body = .error .missingDelimiter
    ∧ Client.parseResponse
        (marshalProtocolJson v ++ (responseBoundary
          ++ (marshalProtocolJson w ++ (responseBoundary ++ junk))))
        = .ok ({ RequestProtocol := v }, { RequestProtocol := w })
    ∧ Client.parseResponse (marshalProtocolJson v ++ responseBoundary)
        = .error .badServerSegment
    ∧ Client.parseResponse (junk ++ (responseBoundary ++ marshalProtocolJson w))
        = .error .badProxySegment :=
  ⟨parseResponse_missing body hnb,
   parseResponse_two v w junk hv hw,
   parseResponse_truncated v hv,
   parseResponse_badProxy junk w hw hjt hjbad⟩

/-- Witness for C2 (amended) at concrete inputs. -/
theorem c2_amended_decode_witness :
    Client.parseResponse "no delimiter here" = .error .missingDelimiter
    ∧ Client.parseResponse
        (marshalProtocolJson "HTTP/2.0" ++ (responseBoundary
          ++ (marshalProtocolJson "HTTP/1.1" ++ (responseBoundary ++ "junk"))))
        = .ok ({ RequestProtocol := "HTTP/2.0" },
               { RequestProtocol := "HTTP/1.1" })
    ∧ Client.parseResponse (marshalProtocolJson "HTTP/2.0" ++ responseBoundary)
        = .error .badServerSegment
    ∧ Client.parseResponse
        ("junk" ++ (responseBoundary ++ marshalProtocolJson "HTTP/1.1"))
        = .error .badProxySegment :=
  c2_amended_decode "no delimiter here" "HTTP/2.0" "HTTP/1.1" "junk"
    (by decide) (by decide) (by decide) (by decide) (by rfl)

/-- C3: the Relay's response body is exactly its own JSON observation,
then the sentinel delimiter, then the Origin's body verbatim; the
Origin's response body is exactly the JSON observation of its inbound
protocol and nothing else. -/
theorem c3_body_format (r : Request) (originResp : HttpResponse) :
    (Proxy.respond r (.ok originResp)).Body
      = (marshalProxyResponse { RequestProtocol := r.Proto }
          ++ responseBoundary) ++ originResp.Body
    ∧ (Server.respond r).Body
      = marshalServerResponse { RequestProtocol := r.Proto } :=
  ⟨rfl, rfl⟩

/-- C4 counterexample: when the forward to the Origin fails, the Relay's
response to its caller has status 200 — not a 5xx — and its body is the
partial, delimiter-terminated tag, contradicting the claim that the Relay
returns a 5xx and emits no partial body. -/
theorem c4_counterexample :
    (Proxy.respond failRequest (.error ())).StatusCode = 200
    ∧ ¬ (500 ≤ (Proxy.respond failRequest (.error ())).StatusCode)
    ∧ (Proxy.respond failRequest (.error ())).Body
        = "\x7b\"protocol\":\"HTTP/2.0\"\x7d~~boundary~~" :=
  ⟨rfl, by decide, rfl⟩

/-- C4 (amended): when the forward to the Origin fails, the Relay's
headers are already committed by the tag write, so its caller sees status
200 with the truncated, still delimiter-terminated body rather than a
5xx; the Edge's decode of that body then fails (the empty second segment
parses as nothing), so no aggregated response with fabricated
observations is produced. -/
theorem c4_amended_failure (r : Request) (h : validField r.Proto = true) :
    (Proxy.respond r (.error ())).StatusCode = 200
    ∧ (Proxy.respond r (.error ())).Body
        = marshalProxyResponse { RequestProtocol := r.Proto } ++ responseBoundary
    ∧ Client.respond (Proxy.respond r (.error ()))
        = .error .badServerSegment := by
  refine ⟨rfl, rfl, ?_⟩
  show (Client.parseResponse
      (marshalProtocolJson r.Proto ++ responseBoundary)).map _ = _
  rw [parseResponse_truncated r.Proto h]
  rfl

/-- Witness for C4 (amended) at a concrete request. -/
theorem c4_amended_failure_witness :
    (Proxy.respond failRequest (.error ())).StatusCode = 200
    ∧ (Proxy.respond failRequest (.error ())).Body
        = marshalProxyResponse { RequestProtocol := failRequest.Proto }
            ++ responseBoundary
    ∧ Client.respond (Proxy.respond failRequest (.error ()))
        = .error .badServerSegment :=
  c4_amended_failure failRequest (by decide)

/-- C5: the negotiation-flag query parameters travel unmodified along the
chain — the Presenter re-attaches the inbound raw query to its request to
the Edge, the Edge re-attaches it to its request to the Relay, and the
Relay's director leaves the forwarded request's query untouched. -/
theorem c5_query_preserved (cp pp oh : String) (r : Request) :
    (Ui.clientUrl cp r).RawQuery = r.URL.RawQuery
    ∧ (Client.proxyUrl pp r).RawQuery = r.URL.RawQuery
    ∧ ((Proxy.director oh r).URL).RawQuery = r.URL.RawQuery :=
  ⟨rfl, rfl, rfl⟩

/-- C6: transport selection is a pure function of the flag and the trust
material — flag true yields the HTTP/2 transport, flag false the HTTP/1.1
transport, both with a root pool built from the same pinned material; the
Relay's selection agrees with the Edge's; and the selected transport
negotiates HTTP/2.0 exactly when the flag is set. -/
theorem c6_transport_selection (useHttp2 : Bool) (caCert : String) :
    Client.selectTransport useHttp2 (.ok caCert)
      = .ok (if useHttp2 then RoundTripper.http2Transport (pemCertBlocks caCert)
             else RoundTripper.httpTransport (pemCertBlocks caCert))
    ∧ Proxy.selectTransport useHttp2 (.ok caCert)
      = Client.selectTransport useHttp2 (.ok caCert)
    ∧ negotiatedProto
        (if useHttp2 then RoundTripper.http2Transport (pemCertBlocks caCert)
         else RoundTripper.httpTransport (pemCertBlocks caCert))
      = some (if useHttp2 then "HTTP/2.0" else "HTTP/1.1") := by
  cases useHttp2 <;> exact ⟨rfl, rfl, rfl⟩

/-- C7: with each negotiation parameter occurring at most once in the
query, a hop's flag is enabled exactly when its parameter is present with
the value "true"; any other value or absence disables it. -/
theorem c7_flag_semantics (q : List (String × String))
    (h1 : (lookupAll q "client-http2").length ≤ 1)
    (h2 : (lookupAll q "proxy-http2").length ≤ 1) :
    ((parseConfigList q).ClientUseHttp2 = true ↔ ("client-http2", "true") ∈ q)
    ∧ ((parseConfigList q).ProxyUseHttp2 = true ↔ ("proxy-http2", "true") ∈ q) :=
  ⟨flag_iff_mem q "client-http2" h1, flag_iff_mem q "proxy-http2" h2⟩

/-- Witness for C7 at a concrete query. -/
theorem c7_flag_semantics_witness :
    ((parseConfigList [("client-http2", "true"), ("proxy-http2", "yes")]).ClientUseHttp2
        = true
      ↔ ("client-http2", "true")
          ∈ [("client-http2", "true"), ("proxy-http2", "yes")])
    ∧ ((parseConfigList [("client-http2", "true"), ("proxy-http2", "yes")]).ProxyUseHttp2
        = true
      ↔ ("proxy-http2", "true")
          ∈ [("client-http2", "true"), ("proxy-http2", "yes")]) :=
  c7_flag_semantics [("client-http2", "true"), ("proxy-http2", "yes")]
    (by decide) (by decide)

/-- C8 counterexample: material that is not parseable PEM (no certificate
block at all) does NOT make construction fail — buildTransport returns a
transport whose root pool is empty, and the AppendCertsFromPEM failure
report is discarded, contradicting the claim that malformed trust-root
material fails with a configuration error. -/
theorem c8_counterexample :
    pemCertBlocks "not a pem certificate" = []
    ∧ TransportFactory.buildTransport Http1 (.ok "not a pem certificate")
        = .ok (.httpTransport [])
    ∧ (appendCertsFromPEM [] "not a pem certificate").snd = false :=
  ⟨rfl, rfl, rfl⟩

/-- C8 (amended): transport construction fails — with the read error —
exactly when the trust-root file cannot be read; whenever the read
succeeds it returns a transport whose root pool holds the certificate
blocks found in the material, which is empty (not an error) when the
material is not parseable PEM. -/
theorem c8_amended_trust_root (e caCert : String) :
    TransportFactory.buildTransport Http1 (.error e) = .error e
    ∧ TransportFactory.buildTransport Http2 (.error e) = .error e
    ∧ TransportFactory.buildTransport Http1 (.ok caCert)
        = .ok (.httpTransport (pemCertBlocks caCert))
    ∧ TransportFactory.buildTransport Http2 (.ok caCert)
        = .ok (.http2Transport (pemCertBlocks caCert)) :=
  ⟨rfl, rfl, rfl, rfl⟩

/-- C9 counterexample: the Edge serves its inbound connections without
TLS — its Start call passes tls = false, so ServeHttp serves plain http —
contradicting the claim that every hop of the chain serves inbound
connections over TLS. -/
theorem c9_counterexample :
    Client.startCall.useTls = false
    ∧ Http2Server.serveScheme Client.startCall.useTls = "http"
    ∧ Http2Server.serveKeyPair Client.startCall.useTls = none :=
  ⟨rfl, rfl, rfl⟩

/-- C9 (amended): the Relay and the Origin serve inbound TLS with the
single pinned certificate pair, while the Edge serves plain HTTP; every
hop acting as a TLS client to the next (Edge to Relay, Relay to Origin)
builds its root pool from exactly the certificates of that same pinned
file. -/
theorem c9_amended_tls_roles (caCert : String) :
    Proxy.startCall.useTls = true
    ∧ Server.startCall.useTls = true
    ∧ Http2Server.serveKeyPair Proxy.startCall.useTls
        = some (Http2Server.certFile, Http2Server.keyFile)
    ∧ Http2Server.serveKeyPair Server.startCall.useTls
        = some (Http2Server.certFile, Http2Server.keyFile)
    ∧ Client.startCall.useTls = false
    ∧ TransportFactory.caCertFile = Http2Server.certFile
    ∧ TransportFactory.BuildHttp2Transport (.ok caCert)
        = .ok (.http2Transport (pemCertBlocks caCert))
    ∧ TransportFactory.BuildHttp1Transport (.ok caCert)
        = .ok (.httpTransport (pemCertBlocks caCert)) :=
  ⟨rfl, rfl, rfl, rfl, rfl, rfl, rfl, rfl⟩

/-- C10: when a negotiation parameter occurs more than once, only the
first occurrence counts — the flag is enabled exactly when the first
value equals "true", every later occurrence (in post) being ignored. -/
theorem c10_first_occurrence (pre post pre2 post2 : List (String × String))
    (v w : String)
    (h1 : ∀ p ∈ pre, ¬ p.fst = "client-http2")
    (h2 : ∀ p ∈ pre2, ¬ p.fst = "proxy-http2") :
    (parseConfigList (pre ++ ("client-http2", v) :: post)).ClientUseHttp2
        = (v == "true")
    ∧ (parseConfigList (pre2 ++ ("proxy-http2", w) :: post2)).ProxyUseHttp2
        = (w == "true") := by
  constructor
  · show (match lookupAll (pre ++ ("client-http2", v) :: post) "client-http2" with
          | [] => false
          | v' :: _ => (v' == "true")) = (v == "true")
    rw [lookupAll_first pre post "client-http2" v h1]
  · show (match lookupAll (pre2 ++ ("proxy-http2", w) :: post2) "proxy-http2" with
          | [] => false
          | v' :: _ => (v' == "true")) = (w == "true")
    rw [lookupAll_first pre2 post2 "proxy-http2" w h2]

/-- Witness for C10 at concrete duplicated queries. -/
theorem c10_first_occurrence_witness :
    (parseConfigList ([("x", "y")] ++ ("client-http2", "true")
        :: [("client-http2", "false")])).ClientUseHttp2
      = ("true" == "true")
    ∧ (parseConfigList ([] ++ ("proxy-http2", "false")
        :: [("proxy-http2", "true")])).ProxyUseHttp2
      = ("false" == "true") :=
  c10_first_occurrence [("x", "y")] [("client-http2", "false")]
    [] [("proxy-http2", "true")] "true" "false" (by decide) (by decide)

end HttpViz
